import Mathlib

/-!
# Verification of the Baltimore permit query server (`server.py`)

Shallow embedding of the pagination engine, filter builders, record
formatter and tool-dispatch branches of `src/server.py`, together with
theorems settling the frozen claims about the natural-language
specification.

Conventions:
* Remote HTTP interaction is modelled by an *oracle* mapping a request
  `(resultOffset, resultRecordCount)` to either a page response or a
  transport error (`query_permit_api` raising on `httpx.HTTPError`).
* The Python `while` loop of `query_permit_api_paginated` is embedded as a
  fuel-indexed recursion; `Option.none` as overall result means the loop has
  not finished within `fuel` iterations (so divergence is "none for every
  fuel").
* Python dictionaries/JSON values are embedded as the inductive `PyVal`.
-/

namespace OpenBalt

/-! ## Pagination engine (`query_permit_api_paginated`, `server.py` lines 64-120) -/

/-- One remote page response: the `features` array and the
`exceededTransferLimit` flag of the GeoJSON reply. -/
structure PageResponse (α : Type) where
  features : List α
  exceededTransferLimit : Bool

/-- A remote service: maps `(resultOffset, resultRecordCount)` to a response,
or to a transport error (`query_permit_api` raises on `httpx.HTTPError`,
`server.py` lines 55-61). -/
def Oracle (α : Type) : Type := Nat → Nat → Except String (PageResponse α)

/-- Loop guard `len(all_features) < total_requested` (`server.py` line 86);
`total_requested` is `float('inf')` when `max_records is None`. -/
def budgetLeft (maxRecords : Option Nat) (len : Nat) : Bool :=
  match maxRecords with
  | some m => len < m
  | none => true

/-- `batch_size = min(page_size, remaining) if max_records is not None else page_size`
(`server.py` lines 88-89). -/
def batchSizeFor (maxRecords : Option Nat) (pageSize len : Nat) : Nat :=
  match maxRecords with
  | some m => min pageSize (m - len)
  | none => pageSize

/-- The body of the `while` loop of `query_permit_api_paginated`
(`server.py` lines 86-114), with explicit accumulator `acc`, current
`offset`, and the trace `reqs` of `(resultOffset, resultRecordCount)` pairs
issued so far.  Fuel bounds the number of loop iterations; running out of
fuel yields `Option.none` (the loop did not finish in that many rounds). -/
def runPaginatedAux {α : Type} (oracle : Oracle α) (maxRecords : Option Nat)
    (pageSize : Nat) :
    Nat → List α → Nat → List (Nat × Nat) →
      Option (List (Nat × Nat) × Except String (List α))
  | 0, _, _, _ => Option.none
  | fuel + 1, acc, offset, reqs =>
    if budgetLeft maxRecords acc.length then
      let batch := batchSizeFor maxRecords pageSize acc.length
      match oracle offset batch with
      | Except.error e => some (reqs ++ [(offset, batch)], Except.error e)
      | Except.ok resp =>
        let reqs1 := reqs ++ [(offset, batch)]
        if resp.features.isEmpty then
          some (reqs1, Except.ok acc)
        else
          let acc1 := acc ++ resp.features
          if resp.features.length < batch then
            some (reqs1, Except.ok acc1)
          else if resp.exceededTransferLimit = false then
            some (reqs1, Except.ok acc1)
          else
            runPaginatedAux oracle maxRecords pageSize fuel acc1
              (offset + resp.features.length) reqs1
    else
      some (reqs, Except.ok acc)

/-- `query_permit_api_paginated` (`server.py` lines 64-120): run the loop
from an empty accumulator and offset `0`, returning the request trace and
either the accumulated feature list or the propagated fetch error. -/
def queryPermitApiPaginated {α : Type} (oracle : Oracle α)
    (maxRecords : Option Nat) (pageSize fuel : Nat) :
    Option (List (Nat × Nat) × Except String (List α)) :=
  runPaginatedAux oracle maxRecords pageSize fuel [] 0 []

/-- A well-behaved remote service over a fixed dataset `ds`: a request at
`offset` for `count` records returns `ds[offset : offset+count]` and sets
`exceededTransferLimit` exactly when more matching records remain. -/
def honestOracle {α : Type} (ds : List α) : Oracle α := fun offset count =>
  let feats := (ds.drop offset).take count
  Except.ok ⟨feats, decide (offset + feats.length < ds.length)⟩

/-- `min(M, available_total)` when a maximum is given, everything otherwise. -/
def expectedCount (maxRecords : Option Nat) (total : Nat) : Nat :=
  match maxRecords with
  | some m => min m total
  | none => total

/-- A misbehaving remote service: every request is answered with one record
and `exceededTransferLimit = true`, regardless of offset. -/
def badOracle : Oracle Nat := fun _ _ => Except.ok ⟨[0], true⟩

/-- A remote service that answers the first page and then fails with a
transport error. -/
def errOracle : Oracle Nat := fun offset _ =>
  if offset = 0 then Except.ok ⟨[7], true⟩ else Except.error "boom"

/-! ## Python value model

JSON-like Python values as handled by `server.py`: `None`, booleans,
integers, strings, lists and string-keyed dictionaries.  (Python floats
other than integral timestamp arithmetic do not occur in the data paths
under verification and are not modelled.) -/

inductive PyVal : Type where
  | none
  | bool (b : Bool)
  | int (n : Int)
  | str (s : String)
  | list (xs : List PyVal)
  | dict (entries : List (String × PyVal))

/-- The single-quote character, written via its code point so the embedding
can build and compare quoted filter expressions. -/
def sqChar : Char := Char.ofNat 39

/-- The single-quote as a one-character string. -/
def sq : String := String.singleton sqChar

/-- Python truthiness (`if value:`): `None`, `False`, `0`, `""`, `[]` and
`\x7b\x7d` are falsy, everything else truthy. -/
def truthy : PyVal → Bool
  | PyVal.none => false
  | PyVal.bool b => b
  | PyVal.int n => n != 0
  | PyVal.str s => !s.isEmpty
  | PyVal.list xs => !xs.isEmpty
  | PyVal.dict d => !d.isEmpty

/-- Dictionary lookup (`d[k]` / `k in d`): first entry with the given key. -/
def dictGet (d : List (String × PyVal)) (k : String) : Option PyVal :=
  (d.find? (fun e => e.1 == k)).map (fun e => e.2)

/-- Python `dict.get(k, default)`. -/
def pyGetD (d : List (String × PyVal)) (k : String) (dflt : PyVal) : PyVal :=
  (dictGet d k).getD dflt

mutual

/-- Python `repr()` for the modelled values (string escaping inside `repr`
of strings is not modelled; strings are shown between plain quotes). -/
def pyRepr : PyVal → String
  | PyVal.none => "None"
  | PyVal.bool b => if b then "True" else "False"
  | PyVal.int n => toString n
  | PyVal.str s => sq ++ s ++ sq
  | PyVal.list xs => "[" ++ pyReprList xs ++ "]"
  | PyVal.dict d => "\x7b" ++ pyReprDict d ++ "\x7d"

/-- `repr` of list elements, comma-separated. -/
def pyReprList : List PyVal → String
  | [] => ""
  | [x] => pyRepr x
  | x :: y :: xs => pyRepr x ++ ", " ++ pyReprList (y :: xs)

/-- `repr` of dict entries, comma-separated. -/
def pyReprDict : List (String × PyVal) → String
  | [] => ""
  | [(k, v)] => sq ++ k ++ sq ++ ": " ++ pyRepr v
  | (k, v) :: e :: xs =>
    sq ++ k ++ sq ++ ": " ++ pyRepr v ++ ", " ++ pyReprDict (e :: xs)

end

/-- Python `str()`: identity on strings, `repr`-like elsewhere. -/
def pyStr : PyVal → String
  | PyVal.str s => s
  | v => pyRepr v

/-! ## Filter builders (`call_tool`, `server.py` lines 291-299, 344-351,
365-369)

Free-text literals are escaped by `value.replace("'", "''")` and
interpolated into a `LIKE '%...%'` (or `= '...'`) filter expression. -/

/-- Characters of `s.replace("'", "''")`: every single-quote doubled. -/
def escChars (l : List Char) : List Char :=
  l.flatMap (fun c => if c = sqChar then [c, c] else [c])

/-- `value.replace("'", "''")` (`server.py` lines 296, 348, 368). -/
def escapeQuotes (s : String) : String := String.mk (escChars s.data)

/-- `where` built by `search_permits_by_address` (`server.py` lines 296-297):
an empty (falsy) address falls back to the tautological `1=1`. -/
def buildAddressWhere (address : String) : String :=
  if address.isEmpty then "1=1"
  else "Address LIKE " ++ sq ++ "%" ++ escapeQuotes address ++ "%" ++ sq

/-- `where` built by `search_permits_by_neighborhood` (`server.py` lines
348-349): no empty-value fallback exists in this branch. -/
def buildNeighborhoodWhere (neighborhood : String) : String :=
  "Neighborhood LIKE " ++ sq ++ "%" ++ escapeQuotes neighborhood ++ "%" ++ sq

/-- `where` built by `search_permits_by_case_number` (`server.py` lines
368-369). -/
def buildCaseNumberWhere (caseNumber : String) : String :=
  "CaseNumber = " ++ sq ++ escapeQuotes caseNumber ++ sq

/-- A quoted-literal payload is syntactically safe when every single-quote
character in it occurs as one of an adjacent pair (so interpolating it
between quote delimiters cannot terminate the literal early). -/
def wellEscaped : List Char → Bool
  | [] => true
  | [c] => c ≠ sqChar
  | c :: c2 :: rest =>
    if c = sqChar then c2 = sqChar && wellEscaped rest
    else wellEscaped (c2 :: rest)

/-! ## Record formatter (`format_permit`, `server.py` lines 123-168)

`datetime.fromtimestamp(...).strftime("%Y-%m-%d")` is modelled in UTC via
the standard civil-calendar conversion; the local-timezone offset of the
host is not modelled. -/

/-- Gregorian date from a day count relative to 1970-01-01 (civil-from-days
algorithm). -/
def civilFromDays (z0 : Int) : Int × Int × Int :=
  let z := z0 + 719468
  let era := z.fdiv 146097
  let doe := z - 146097 * era
  let yoe := (doe - doe.fdiv 1460 + doe.fdiv 36524 - doe.fdiv 146096).fdiv 365
  let y := yoe + era * 400
  let doy := doe - (365 * yoe + yoe.fdiv 4 - yoe.fdiv 100)
  let mp := (5 * doy + 2).fdiv 153
  let d := doy - (153 * mp + 2).fdiv 5 + 1
  let m := if mp < 10 then mp + 3 else mp - 9
  (if m ≤ 2 then y + 1 else y, m, d)

/-- Zero-pad to two digits (`%m`, `%d`). -/
def pad2 (n : Nat) : String := if n < 10 then "0" ++ toString n else toString n

/-- Zero-pad to four digits (`%Y`). -/
def pad4 (n : Nat) : String :=
  if n < 10 then "000" ++ toString n
  else if n < 100 then "00" ++ toString n
  else if n < 1000 then "0" ++ toString n
  else toString n

/-- `datetime.fromtimestamp(ms / 1000).strftime("%Y-%m-%d")` for an integer
epoch-millisecond value; `Option.none` models the `ValueError` raised when
the resulting year falls outside `datetime`'s supported range 1..9999. -/
def dateFromEpochMs (ms : Int) : Option String :=
  let ymd := civilFromDays (ms.fdiv 86400000)
  if 1 ≤ ymd.1 ∧ ymd.1 ≤ 9999 then
    some (pad4 ymd.1.toNat ++ "-" ++ pad2 ymd.2.1.toNat ++ "-"
      ++ pad2 ymd.2.2.toNat)
  else Option.none

/-- Numeric view used by `value / 1000`: Python ints divide, and bools are
ints (`True == 1`); every other type raises `TypeError`. -/
def pyNumMs : PyVal → Option Int
  | PyVal.int n => some n
  | PyVal.bool b => some (if b then 1 else 0)
  | _ => Option.none

/-- `datetime.fromtimestamp(ms / 1000)` first converts the seconds value to
the platform `time_t` (a signed 64-bit integer): a value outside that range
raises `OverflowError: timestamp out of range for platform time_t`, which is
**not** in the `(ValueError, TypeError, OSError)` tuple caught by
`format_permit` and so escapes.  (Float rounding of `ms / 1000` is not
modelled.) -/
def msInRange (n : Int) : Bool :=
  decide (-(2 ^ 63) ≤ n.fdiv 1000 ∧ n.fdiv 1000 ≤ 2 ^ 63 - 1)

/-- The `issued_date` / `expiration_date` blocks (`server.py` lines
129-143): a falsy field renders empty; a numeric timestamp within the
`time_t` range renders as `YYYY-MM-DD`, or falls back to the raw value's
`str()` form when `fromtimestamp`/`strftime` fail with a caught
`ValueError`/`OSError` (year outside `datetime`'s or the platform's range);
a non-numeric field raises `TypeError` in the division, also caught.  A
numeric timestamp beyond the `time_t` range raises `OverflowError`, which
the `except (ValueError, TypeError, OSError)` clause does **not** catch —
that error escapes `format_permit`. -/
def formatDateField (pr : List (String × PyVal)) (key : String) :
    Except String String :=
  let v := pyGetD pr key PyVal.none
  if truthy v then
    match pyNumMs v with
    | some n =>
      if msInRange n then
        match dateFromEpochMs n with
        | some s => Except.ok s
        | Option.none => Except.ok (pyStr v)
      else
        Except.error "OverflowError: timestamp out of range for platform"
    | Option.none => Except.ok (pyStr v)
  else Except.ok ""

/-- `f"{value:.6f}"` on an unpacked coordinate: succeeds on numbers,
raises `ValueError` otherwise. -/
def fmt6val : PyVal → Except String String
  | PyVal.int n => Except.ok (toString n ++ ".000000")
  | PyVal.bool b => Except.ok (if b then "1.000000" else "0.000000")
  | _ => Except.error "ValueError: Unknown format code f"

/-- The `coords` block (`server.py` lines 146-149): a falsy `coordinates`
value renders empty; a two-element list unpacks as `lon, lat` and renders
`(lat, lon)` with six decimals; anything else raises (`ValueError` on a
wrong-arity unpack or non-numeric format, `TypeError` on a non-iterable) —
uncaught, there is no `try` around this block. -/
def formatCoordsVal (c : PyVal) : Except String String :=
  if truthy c then
    match c with
    | PyVal.list [lon, lat] => do
      let latS ← fmt6val lat
      let lonS ← fmt6val lon
      Except.ok ("(" ++ latS ++ ", " ++ lonS ++ ")")
    | _ => Except.error "ValueError: cannot unpack coordinates"
  else Except.ok ""

/-- The `coords` block applied to `geom.get("coordinates")`. -/
def formatCoords (gm : List (String × PyVal)) : Except String String :=
  formatCoordsVal (pyGetD gm "coordinates" PyVal.none)

/-- Insert a comma after every third character of a reversed digit list. -/
def chunk3 : List Char → List Char
  | a :: b :: c :: d :: rest => a :: b :: c :: ',' :: chunk3 (d :: rest)
  | l => l

/-- Thousands grouping of a natural number (`f"{cost:,.0f}"`). -/
def commaGroupNat (n : Nat) : String :=
  String.mk (chunk3 (toString n).data.reverse).reverse

/-- Thousands grouping of an integer. -/
def commaGroupInt (n : Int) : String :=
  (if n < 0 then "-" else "") ++ commaGroupNat n.natAbs

/-- The `cost_str` block (`server.py` lines 151-152): a falsy cost renders
`N/A`; a numeric cost renders `$` plus the thousands-grouped value; a truthy
non-numeric cost raises `ValueError` — uncaught. -/
def formatCostVal (cost : PyVal) : Except String String :=
  if truthy cost then
    match cost with
    | PyVal.int n => Except.ok ("$" ++ commaGroupInt n)
    | PyVal.bool _ => Except.ok "$1"
    | _ => Except.error "ValueError: Unknown format code f"
  else Except.ok "N/A"

/-- The `cost_str` block applied to `props.get("Cost")`. -/
def formatCost (pr : List (String × PyVal)) : Except String String :=
  formatCostVal (pyGetD pr "Cost" PyVal.none)

/-- The description slice `props.get('Description', 'N/A')[:200]`
(`server.py` line 161): strings and lists slice; any non-subscriptable
value (int, bool, `None`, dict) raises `TypeError` — uncaught. -/
def formatDescriptionVal : PyVal → Except String String
  | PyVal.str s => Except.ok (s.take 200)
  | PyVal.list xs => Except.ok (pyStr (PyVal.list (xs.take 200)))
  | _ => Except.error "TypeError: object is not subscriptable"

/-- The description slice applied to `props.get('Description', 'N/A')`. -/
def formatDescription (pr : List (String × PyVal)) : Except String String :=
  formatDescriptionVal (pyGetD pr "Description" (PyVal.str "N/A"))

/-- The final f-string of `format_permit` (`server.py` lines 154-168). -/
def renderPermit (pr : List (String × PyVal))
    (issued expires coords costS desc : String) : String :=
  "\n    Permit: " ++ pyStr (pyGetD pr "CaseNumber" (PyVal.str "N/A"))
  ++ "\n    Address: " ++ pyStr (pyGetD pr "Address" (PyVal.str "N/A"))
  ++ "\n    Neighborhood: "
    ++ pyStr (pyGetD pr "Neighborhood" (PyVal.str "N/A"))
  ++ "\n    Issued: " ++ issued
  ++ "\n    Expires: " ++ expires
  ++ "\n    Cost: " ++ costS
  ++ "\n    Description: " ++ desc ++ "..."
  ++ "\n    Block/Lot: " ++ pyStr (pyGetD pr "BLOCKLOT" (PyVal.str "N/A"))
  ++ "\n    Council District: "
    ++ pyStr (pyGetD pr "Council_District" (PyVal.str "N/A"))
  ++ "\n    Existing Use: "
    ++ pyStr (pyGetD pr "ExistingUse" (PyVal.str "N/A"))
  ++ "\n    Proposed Use: "
    ++ pyStr (pyGetD pr "ProposedUse" (PyVal.str "N/A"))
  ++ "\n    Location: " ++ coords
  ++ "\n    Modification: "
    ++ (if truthy (pyGetD pr "IsPermitModification" PyVal.none) then "Yes"
        else "No")
  ++ "\n---"

/-- `format_permit` (`server.py` lines 123-168).  `Except.error` models an
uncaught exception escaping the function (`AttributeError` when
`permit`/`properties`/`geometry` is not a dict, `OverflowError` from a
timestamp beyond `time_t`, or the coordinate, cost and description failures
above), in the source's evaluation order: issued date, expiration date,
coordinates, cost, then the f-string with the description slice. -/
def formatPermit (permit : PyVal) : Except String String :=
  match permit with
  | PyVal.dict pd =>
    match pyGetD pd "properties" (PyVal.dict []),
        pyGetD pd "geometry" (PyVal.dict []) with
    | PyVal.dict pr, PyVal.dict gm => do
      let issued ← formatDateField pr "IssuedDate"
      let expires ← formatDateField pr "ExpirationDate"
      let coords ← formatCoords gm
      let costS ← formatCost pr
      let desc ← formatDescription pr
      Except.ok (renderPermit pr issued expires coords costS desc)
    | _, _ => Except.error "AttributeError: object has no attribute get"
  | _ => Except.error "AttributeError: object has no attribute get"

/-- The description values `format_permit` can slice without raising. -/
def descOk : PyVal → Bool
  | PyVal.str _ => true
  | PyVal.list _ => true
  | _ => false

/-- Numbers as accepted by the `:.6f` / `:,.0f` format specs. -/
def numOk : PyVal → Bool
  | PyVal.int _ => true
  | PyVal.bool _ => true
  | _ => false

/-- The cost values `format_permit` can render without raising: falsy, or
numeric. -/
def costOk (v : PyVal) : Bool := !truthy v || numOk v

/-- The coordinates values `format_permit` can render without raising:
falsy, or a two-element list of numbers. -/
def coordsOk (v : PyVal) : Bool :=
  !truthy v ||
    (match v with
     | PyVal.list [lon, lat] => numOk lon && numOk lat
     | _ => false)

/-- The timestamp values `format_permit` survives: non-numeric ones (their
`TypeError` is caught) and numeric ones within the `time_t` range (whose
`ValueError`/`OSError` failures are caught); a numeric value beyond `time_t`
raises an uncaught `OverflowError`. -/
def tsOk (v : PyVal) : Bool :=
  match pyNumMs v with
  | some n => msInRange n
  | Option.none => true

/-- The class of permit records on which `format_permit` is total: a dict
whose `properties`/`geometry` entries (when present) are dicts, with a
sliceable description, a falsy-or-numeric cost, well-shaped coordinates and
issued/expiration timestamps that are non-numeric or within the `time_t`
range.  All other fields may be arbitrary values. -/
def permitWellFormed (permit : PyVal) : Bool :=
  match permit with
  | PyVal.dict pd =>
    match pyGetD pd "properties" (PyVal.dict []),
        pyGetD pd "geometry" (PyVal.dict []) with
    | PyVal.dict pr, PyVal.dict gm =>
      descOk (pyGetD pr "Description" (PyVal.str "N/A"))
        && costOk (pyGetD pr "Cost" PyVal.none)
        && coordsOk (pyGetD gm "coordinates" PyVal.none)
        && tsOk (pyGetD pr "IssuedDate" PyVal.none)
        && tsOk (pyGetD pr "ExpirationDate" PyVal.none)
    | _, _ => false
  | _ => false

/-- A permit record whose issued timestamp lies beyond the platform
`time_t` range (`IssuedDate = 10 ^ 22` epoch-milliseconds), with every
other field benign. -/
def overflowTimestampPermit : PyVal :=
  PyVal.dict [("properties",
      PyVal.dict [("IssuedDate", PyVal.int (10 ^ 22))]),
    ("geometry", PyVal.dict [])]

/-- A well-formed sample permit record. -/
def samplePermit : PyVal :=
  PyVal.dict [("properties", PyVal.dict
      [("CaseNumber", PyVal.str "COM2018-86246"),
       ("Cost", PyVal.int 25000),
       ("IssuedDate", PyVal.int 1514764800000),
       ("Description", PyVal.str "ROOF REPAIR")]),
    ("geometry", PyVal.dict
      [("coordinates", PyVal.list [PyVal.int (-76), PyVal.int 39])])]

/-- A permit record with a non-string description (the slice
`props.get('Description', 'N/A')[:200]` raises `TypeError` on it). -/
def badDescriptionPermit : PyVal :=
  PyVal.dict [("properties", PyVal.dict [("Description", PyVal.int 5)]),
    ("geometry", PyVal.dict [])]

/-! ## Date-range validation (`call_tool`, `server.py` lines 313-328)

`datetime.strptime(value, "%Y-%m-%d")` is modelled after CPython's
`_strptime` compiled pattern: `%Y` matches exactly four digits, `%m` matches
`1[0-2]|0[1-9]|[1-9]` and `%d` matches `3[01]|[12]\d|0[1-9]|[1-9]`, each
with two-digit alternatives preferred; leftover input raises "unconverted
data remains", and calendar validation happens afterwards in the `datetime`
constructor.  `.timestamp()` is modelled at UTC midnight. -/

/-- Numeric value of a decimal digit character. -/
def digitVal (c : Char) : Nat := c.toNat - 48

/-- `%Y`: exactly four digits. -/
def parse4Digits : List Char → Option (Nat × List Char)
  | a :: b :: c :: d :: rest =>
    if a.isDigit && b.isDigit && c.isDigit && d.isDigit then
      some (((digitVal a * 10 + digitVal b) * 10 + digitVal c) * 10
        + digitVal d, rest)
    else Option.none
  | _ => Option.none

/-- `%m` candidates in regex preference order: a two-digit month `01..12`
first, then a single digit `1..9`. -/
def parseMonth : List Char → List (Nat × List Char)
  | [] => []
  | [a] => if a.isDigit && 1 ≤ digitVal a then [(digitVal a, [])] else []
  | a :: b :: rest =>
    (if a.isDigit && b.isDigit && 1 ≤ digitVal a * 10 + digitVal b
        && digitVal a * 10 + digitVal b ≤ 12 then
      [(digitVal a * 10 + digitVal b, rest)]
    else []) ++
    (if a.isDigit && 1 ≤ digitVal a then [(digitVal a, b :: rest)] else [])

/-- `%d` candidates in regex preference order: a two-digit day `01..31`
first, then a single digit `1..9`. -/
def parseDay : List Char → List (Nat × List Char)
  | [] => []
  | [a] => if a.isDigit && 1 ≤ digitVal a then [(digitVal a, [])] else []
  | a :: b :: rest =>
    (if a.isDigit && b.isDigit && 1 ≤ digitVal a * 10 + digitVal b
        && digitVal a * 10 + digitVal b ≤ 31 then
      [(digitVal a * 10 + digitVal b, rest)]
    else []) ++
    (if a.isDigit && 1 ≤ digitVal a then [(digitVal a, b :: rest)] else [])

/-- Regex match of the `%Y-%m-%d` pattern against a prefix of the input:
the first backtracking path that completes the pattern wins, and any
unconsumed suffix is returned. -/
def matchYMD (cs : List Char) : Option (Nat × Nat × Nat × List Char) :=
  match parse4Digits cs with
  | some (y, r1) =>
    match r1 with
    | c1 :: r2 =>
      if c1 = '-' then
        (parseMonth r2).findSome? (fun mc =>
          match mc.2 with
          | c2 :: r4 =>
            if c2 = '-' then
              (parseDay r4).findSome? (fun dc =>
                some (y, mc.1, dc.1, dc.2))
            else Option.none
          | [] => Option.none)
      else Option.none
    | [] => Option.none
  | Option.none => Option.none

/-- How `datetime.strptime` fails. -/
inductive StrptimeErr : Type where
  | noMatch
  | unconverted (rest : String)
  | badDate

/-- Days in a month of the proleptic Gregorian calendar. -/
def daysInMonth (y m : Nat) : Nat :=
  if m = 2 then
    if (y % 4 = 0 && y % 100 != 0) || y % 400 = 0 then 29 else 28
  else if m = 4 || m = 6 || m = 9 || m = 11 then 30 else 31

/-- `datetime.strptime(s, "%Y-%m-%d")`: regex match, leftover check, then
calendar validation by the `datetime` constructor (year `1..9999`, day
within the month). -/
def strptimeYMD (s : String) : Except StrptimeErr (Nat × Nat × Nat) :=
  match matchYMD s.data with
  | Option.none => Except.error StrptimeErr.noMatch
  | some (y, m, d, rest) =>
    if rest.isEmpty then
      if 1 ≤ y ∧ d ≤ daysInMonth y m then Except.ok (y, m, d)
      else Except.error StrptimeErr.badDate
    else Except.error (StrptimeErr.unconverted (String.mk rest))

/-- Day count since 1970-01-01 of a civil date (days-from-civil algorithm). -/
def daysFromCivil (y : Int) (m d : Nat) : Int :=
  let y2 := if m ≤ 2 then y - 1 else y
  let era := y2.fdiv 400
  let yoe := (y2 - era * 400).toNat
  let mp := if m ≤ 2 then m + 9 else m - 3
  let doy := (153 * mp + 2) / 5 + d - 1
  let doe := yoe * 365 + yoe / 4 - yoe / 100 + doy
  era * 146097 + (doe : Int) - 719468

/-- `int(datetime.strptime(...).timestamp() * 1000)` at UTC midnight. -/
def dateToEpochMs (ymd : Nat × Nat × Nat) : Int :=
  daysFromCivil (Int.ofNat ymd.1) ymd.2.1 ymd.2.2 * 86400000

/-- The message of the `ValueError` raised by `_strptime` / `datetime`. -/
def strptimeErrMsg (value : String) : StrptimeErr → String
  | StrptimeErr.noMatch =>
    ("time data " ++ sq) ++ value
      ++ (sq ++ " does not match format " ++ sq ++ "%Y-%m-%d" ++ sq)
  | StrptimeErr.unconverted rest => "unconverted data remains: " ++ rest
  | StrptimeErr.badDate => "day is out of range for month"

/-- The error text returned to the caller (`server.py` lines 322-326). -/
def invalidDateText (e : String) : String :=
  "Invalid date format. Please use YYYY-MM-DD format. Error: " ++ e

/-- The observable outcome of a tool-call branch: either explanatory error
text is returned with no remote request, or a paginated remote query with
the given filter expression and record cap is issued. -/
inductive ToolOutcome : Type where
  | errText (msg : String)
  | query (whereClause : String) (maxRecords : Nat)

/-- The `search_permits_by_date_range` branch (`server.py` lines 313-330):
parse both bounds (start first); on the first parse failure return the
explanatory text and issue no remote request; otherwise build the timestamp
filter and issue the paginated query. -/
def searchPermitsByDateRange (startDate endDate : String) (limit : Nat) :
    ToolOutcome :=
  match strptimeYMD startDate with
  | Except.error e =>
    ToolOutcome.errText (invalidDateText (strptimeErrMsg startDate e))
  | Except.ok sd =>
    match strptimeYMD endDate with
    | Except.error e =>
      ToolOutcome.errText (invalidDateText (strptimeErrMsg endDate e))
    | Except.ok ed =>
      ToolOutcome.query ("IssuedDate >= " ++ toString (dateToEpochMs sd)
        ++ " AND IssuedDate <= " ++ toString (dateToEpochMs ed)) limit

/-! ## Recent permits (`call_tool`, `server.py` lines 382-411) and count
(`server.py` lines 413-423) -/

/-- The sort key `x.get("properties", \x7b\x7d).get("IssuedDate", 0)`
(`server.py` line 404).  Non-integer values are modelled as the default `0`
(Python would raise on comparing mixed key types; only integer timestamps
are compared here). -/
def issuedKeyOf (feat : PyVal) : Int :=
  match feat with
  | PyVal.dict fd =>
    match pyGetD fd "properties" (PyVal.dict []) with
    | PyVal.dict pr =>
      match pyGetD pr "IssuedDate" (PyVal.int 0) with
      | PyVal.int n => n
      | _ => 0
    | _ => 0
  | _ => 0

/-- The comparator of `sorted(..., key=..., reverse=True)`: `a` may precede
`b` when `a`'s issued timestamp is at least `b`'s. -/
def issuedDesc (a b : PyVal) : Bool := decide (issuedKeyOf b ≤ issuedKeyOf a)

/-- `sorted(features, key=..., reverse=True)[:limit]` (`server.py` lines
402-406): a stable descending sort followed by truncation. -/
def getRecentSort (feats : List PyVal) (limit : Nat) : List PyVal :=
  (feats.mergeSort issuedDesc).take limit

/-- The `get_recent_permits` branch (`server.py` lines 382-411): the remote
filter keeps records issued at or after the cutoff (modelled by filtering
the service's dataset), the paginated fetch is capped at `limit * 2`
records with the default page size 1000, and the fetched batch is re-sorted
descending and truncated to `limit`. -/
def getRecentPermits (ds : List PyVal) (cutoff : Int) (limit fuel : Nat) :
    Option (List PyVal) :=
  let matching := ds.filter (fun f => decide (cutoff ≤ issuedKeyOf f))
  match queryPermitApiPaginated (honestOracle matching) (some (limit * 2))
      1000 fuel with
  | some (_, Except.ok feats) => some (getRecentSort feats limit)
  | _ => Option.none

/-- One remote request as issued by `query_permit_api` for the count branch:
the filter expression and the `returnCountOnly` flag. -/
structure CountRequest : Type where
  whereClause : String
  returnCountOnly : Bool

/-- Extraction of the scalar count (`server.py` line 418):
`data.get("properties", \x7b\x7d).get("count", 0) if "properties" in data
else data.get("count", 0)`.  `Except.error` models the uncaught exception
when the response (or its `properties` entry) is not a dict. -/
def extractCount (data : PyVal) : Except String PyVal :=
  match data with
  | PyVal.dict d =>
    match dictGet d "properties" with
    | some props =>
      match props with
      | PyVal.dict pd => Except.ok (pyGetD pd "count" (PyVal.int 0))
      | _ => Except.error "AttributeError: object has no attribute get"
    | Option.none => Except.ok (pyGetD d "count" (PyVal.int 0))
  | _ => Except.error "TypeError: argument is not iterable"

/-- The `count_permits` branch (`server.py` lines 413-423): one direct call
to `query_permit_api` with `return_count_only=True` — the pagination loop is
never entered — followed by count extraction from the remote response. -/
def countPermits (whereClause : String) (data : PyVal) :
    List CountRequest × Except String PyVal :=
  ([⟨whereClause, true⟩], extractCount data)

/-! ## Theorems -/

/-- Length bookkeeping for a prefix of the dataset. -/
theorem length_take_of_le {α : Type} (ds : List α) (offset : Nat)
    (h : offset ≤ ds.length) : (ds.take offset).length = offset := by
  simp [List.length_take]; omega

/-- Splicing one honest page onto an accumulated prefix yields a longer
prefix. -/
theorem take_append_page {α : Type} (ds : List α) (offset batch : Nat) :
    ds.take offset ++ (ds.drop offset).take batch = ds.take (offset + batch) :=
  (List.take_add ..).symm

/-- Unfolding the loop when the budget is already exhausted: the loop exits
at its guard without issuing a request. -/
theorem runAux_budget_done {α : Type} (oracle : Oracle α) (mr : Option Nat)
    (ps fuel : Nat) (acc : List α) (offset : Nat) (reqs : List (Nat × Nat))
    (hb : budgetLeft mr acc.length = false) :
    runPaginatedAux oracle mr ps (fuel + 1) acc offset reqs
      = some (reqs, Except.ok acc) := by
  simp [runPaginatedAux, hb]

/-- Unfolding the loop when the remote fetch raises: the whole run stops with
the error, discarding the accumulator. -/
theorem runAux_step_error {α : Type} (oracle : Oracle α) (mr : Option Nat)
    (ps fuel : Nat) (acc : List α) (offset : Nat) (reqs : List (Nat × Nat))
    (e : String) (hb : budgetLeft mr acc.length = true)
    (ho : oracle offset (batchSizeFor mr ps acc.length) = Except.error e) :
    runPaginatedAux oracle mr ps (fuel + 1) acc offset reqs
      = some (reqs ++ [(offset, batchSizeFor mr ps acc.length)],
          Except.error e) := by
  simp [runPaginatedAux, hb, ho]

/-- Unfolding the loop on an empty page: `if not features: break`. -/
theorem runAux_step_empty {α : Type} (oracle : Oracle α) (mr : Option Nat)
    (ps fuel : Nat) (acc : List α) (offset : Nat) (reqs : List (Nat × Nat))
    (resp : PageResponse α) (hb : budgetLeft mr acc.length = true)
    (ho : oracle offset (batchSizeFor mr ps acc.length) = Except.ok resp)
    (he : resp.features.isEmpty = true) :
    runPaginatedAux oracle mr ps (fuel + 1) acc offset reqs
      = some (reqs ++ [(offset, batchSizeFor mr ps acc.length)],
          Except.ok acc) := by
  simp [runPaginatedAux, hb, ho, he]

/-- Unfolding the loop on a short page: `if len(features) < batch_size: break`. -/
theorem runAux_step_short {α : Type} (oracle : Oracle α) (mr : Option Nat)
    (ps fuel : Nat) (acc : List α) (offset : Nat) (reqs : List (Nat × Nat))
    (resp : PageResponse α) (hb : budgetLeft mr acc.length = true)
    (ho : oracle offset (batchSizeFor mr ps acc.length) = Except.ok resp)
    (he : resp.features.isEmpty = false)
    (hs : resp.features.length < batchSizeFor mr ps acc.length) :
    runPaginatedAux oracle mr ps (fuel + 1) acc offset reqs
      = some (reqs ++ [(offset, batchSizeFor mr ps acc.length)],
          Except.ok (acc ++ resp.features)) := by
  simp [runPaginatedAux, hb, ho, he, hs]

/-- Unfolding the loop on a full page whose response does not flag more data:
`if not data.get("exceededTransferLimit", False): break`. -/
theorem runAux_step_noflag {α : Type} (oracle : Oracle α) (mr : Option Nat)
    (ps fuel : Nat) (acc : List α) (offset : Nat) (reqs : List (Nat × Nat))
    (resp : PageResponse α) (hb : budgetLeft mr acc.length = true)
    (ho : oracle offset (batchSizeFor mr ps acc.length) = Except.ok resp)
    (he : resp.features.isEmpty = false)
    (hs : ¬ resp.features.length < batchSizeFor mr ps acc.length)
    (hf : resp.exceededTransferLimit = false) :
    runPaginatedAux oracle mr ps (fuel + 1) acc offset reqs
      = some (reqs ++ [(offset, batchSizeFor mr ps acc.length)],
          Except.ok (acc ++ resp.features)) := by
  simp [runPaginatedAux, hb, ho, he, hs, hf]

/-- Unfolding the loop on a full page with the flag set: the loop advances the
offset by the number of records actually returned and iterates. -/
theorem runAux_step_next {α : Type} (oracle : Oracle α) (mr : Option Nat)
    (ps fuel : Nat) (acc : List α) (offset : Nat) (reqs : List (Nat × Nat))
    (resp : PageResponse α) (hb : budgetLeft mr acc.length = true)
    (ho : oracle offset (batchSizeFor mr ps acc.length) = Except.ok resp)
    (he : resp.features.isEmpty = false)
    (hs : ¬ resp.features.length < batchSizeFor mr ps acc.length)
    (hf : resp.exceededTransferLimit = true) :
    runPaginatedAux oracle mr ps (fuel + 1) acc offset reqs
      = runPaginatedAux oracle mr ps fuel (acc ++ resp.features)
          (offset + resp.features.length)
          (reqs ++ [(offset, batchSizeFor mr ps acc.length)]) := by
  simp [runPaginatedAux, hb, ho, he, hs, hf]

/-- The honest oracle's literal response. -/
theorem honestOracle_eq {α : Type} (ds : List α) (offset count : Nat) :
    honestOracle ds offset count
      = Except.ok ⟨(ds.drop offset).take count,
          decide (offset + ((ds.drop offset).take count).length
            < ds.length)⟩ := rfl

/-- Core correctness of the pagination loop against a well-behaved remote
service, bounded case (`max_records = m`): starting from the accumulated
prefix `ds.take offset`, the loop completes and ends up holding exactly the
first `min m ds.length` records of the dataset, and every request it appends
to the trace asks for at least one record. -/
theorem runAux_honest_some (α : Type) (ds : List α) (m ps : Nat)
    (hps : 1 ≤ ps) :
    ∀ fuel offset reqs, offset ≤ ds.length → offset ≤ m →
      ds.length - offset < fuel →
      ∃ reqs', runPaginatedAux (honestOracle ds) (some m) ps fuel
          (ds.take offset) offset reqs
          = some (reqs', Except.ok (ds.take (min m ds.length))) ∧
        ∀ q ∈ reqs', q ∈ reqs ∨ 1 ≤ q.2 := by
  intro fuel
  induction fuel with
  | zero => intro offset reqs _ _ h; omega
  | succ fuel ih =>
    intro offset reqs hoff hom hfuel
    have hlenacc : (ds.take offset).length = offset :=
      length_take_of_le ds offset hoff
    by_cases hb : offset < m
    · -- budget left: a request for `min ps (m - offset)` records is issued
      have hbt : budgetLeft (some m) (ds.take offset).length = true := by
        simp [budgetLeft, hlenacc]; omega
      have hbatch : batchSizeFor (some m) ps (ds.take offset).length
          = min ps (m - offset) := by
        simp [batchSizeFor, hlenacc]
      have hbatch1 : 1 ≤ min ps (m - offset) := by omega
      have hflen : ((ds.drop offset).take (min ps (m - offset))).length
          = min (min ps (m - offset)) (ds.length - offset) := by
        simp [List.length_take, List.length_drop]
      have ho : honestOracle ds offset
          (batchSizeFor (some m) ps (ds.take offset).length)
          = Except.ok ⟨(ds.drop offset).take (min ps (m - offset)),
              decide (offset
                + ((ds.drop offset).take (min ps (m - offset))).length
                < ds.length)⟩ := by
        rw [hbatch]; rfl
      by_cases hend : ds.length ≤ offset
      · -- dataset exhausted at this offset: the page comes back empty
        have hfe : (ds.drop offset).take (min ps (m - offset)) = [] := by
          have : ds.drop offset = [] := List.drop_eq_nil_of_le hend
          simp [this]
        have he : ((ds.drop offset).take (min ps (m - offset))).isEmpty
            = true := by simp [hfe]
        rw [runAux_step_empty _ _ _ _ _ _ _ _ hbt (by rw [ho, hfe])
          (by simp)]
        · refine ⟨reqs ++ [(offset,
            batchSizeFor (some m) ps (ds.take offset).length)], ?_, ?_⟩
          · have hmin : min m ds.length = ds.length := by omega
            have hoN : offset = ds.length := by omega
            rw [hmin, hoN]
          · intro q hq
            rcases List.mem_append.mp hq with h1 | h1
            · exact Or.inl h1
            · simp only [List.mem_singleton] at h1; subst h1
              rw [hbatch]; exact Or.inr hbatch1
      · -- records remain: the returned page is nonempty
        push_neg at hend
        have hne : ((ds.drop offset).take (min ps (m - offset))).length
            ≠ 0 := by rw [hflen]; omega
        have he : ((ds.drop offset).take (min ps (m - offset))).isEmpty
            = false := by
          rcases hx : (ds.drop offset).take (min ps (m - offset)) with _ | _
          · rw [hx] at hne; simp at hne
          · simp
        by_cases hshort : ((ds.drop offset).take (min ps (m - offset))).length
            < min ps (m - offset)
        · -- short page: remote data exhausted, result is the whole dataset
          have hNlt : ds.length - offset < min ps (m - offset) := by
            rw [hflen] at hshort; omega
          have hmlt : ds.length < m := by omega
          have hdall : (ds.drop offset).take (min ps (m - offset))
              = ds.drop offset := by
            apply List.take_of_length_le
            simp [List.length_drop]; omega
          rw [runAux_step_short _ _ _ _ _ _ _ _ hbt ho
            (by simpa using he) (by rw [hbatch]; simpa using hshort)]
          refine ⟨reqs ++ [(offset,
            batchSizeFor (some m) ps (ds.take offset).length)], ?_, ?_⟩
          · have hmin : min m ds.length = ds.length := by omega
            rw [hmin, hdall, List.take_append_drop, List.take_length]
          · intro q hq
            rcases List.mem_append.mp hq with h1 | h1
            · exact Or.inl h1
            · simp only [List.mem_singleton] at h1; subst h1
              rw [hbatch]; exact Or.inr hbatch1
        · -- full page
          have hfull : ((ds.drop offset).take (min ps (m - offset))).length
              = min ps (m - offset) := by rw [hflen]; rw [hflen] at hshort; omega
          have hble : min ps (m - offset) ≤ ds.length - offset := by
            rw [hflen] at hfull; omega
          by_cases hmore : offset + min ps (m - offset) < ds.length
          · -- flag set: advance the offset and recurse
            have hf : decide (offset
                + ((ds.drop offset).take (min ps (m - offset))).length
                < ds.length) = true := by rw [hfull]; simp; omega
            rw [runAux_step_next _ _ _ _ _ _ _ _ hbt ho
              (by simpa using he) (by rw [hbatch]; simpa using hshort)
              (by simpa using hf)]
            have hrec := ih (offset + min ps (m - offset))
              (reqs ++ [(offset, batchSizeFor (some m) ps
                (ds.take offset).length)])
              (by omega) (by omega) (by omega)
            rcases hrec with ⟨reqs', heq, hq⟩
            refine ⟨reqs', ?_, ?_⟩
            · rw [take_append_page, hfull]
              exact heq
            · intro q hq'
              rcases hq q hq' with h1 | h1
              · rcases List.mem_append.mp h1 with h2 | h2
                · exact Or.inl h2
                · simp only [List.mem_singleton] at h2; subst h2
                  rw [hbatch]; exact Or.inr hbatch1
              · exact Or.inr h1
          · -- flag clear: this full page ended exactly at the dataset end
            have hoffN : offset + min ps (m - offset) = ds.length := by omega
            have hf : decide (offset
                + ((ds.drop offset).take (min ps (m - offset))).length
                < ds.length) = false := by rw [hfull]; simp; omega
            rw [runAux_step_noflag _ _ _ _ _ _ _ _ hbt ho
              (by simpa using he) (by rw [hbatch]; simpa using hshort)
              (by simpa using hf)]
            refine ⟨reqs ++ [(offset,
              batchSizeFor (some m) ps (ds.take offset).length)], ?_, ?_⟩
            · have hmin : min m ds.length = ds.length := by omega
              rw [take_append_page, hmin, hoffN, List.take_length]
            · intro q hq
              rcases List.mem_append.mp hq with h1 | h1
              · exact Or.inl h1
              · simp only [List.mem_singleton] at h1; subst h1
                rw [hbatch]; exact Or.inr hbatch1
    · -- budget exhausted at the guard: exit without a request
      have hbf : budgetLeft (some m) (ds.take offset).length = false := by
        simp [budgetLeft, hlenacc]; omega
      rw [runAux_budget_done _ _ _ _ _ _ _ hbf]
      refine ⟨reqs, ?_, fun q hq => Or.inl hq⟩
      have hoffm : offset = m := by omega
      have hmin : min m ds.length = m := by omega
      rw [hmin, hoffm]

/-- Core correctness of the pagination loop against a well-behaved remote
service, unbounded case (`max_records = None`, "fetch all"): the loop
completes and ends up holding the entire dataset. -/
theorem runAux_honest_none (α : Type) (ds : List α) (ps : Nat)
    (hps : 1 ≤ ps) :
    ∀ fuel offset reqs, offset ≤ ds.length → ds.length - offset < fuel →
      ∃ reqs', runPaginatedAux (honestOracle ds) Option.none ps fuel
          (ds.take offset) offset reqs = some (reqs', Except.ok ds) ∧
        ∀ q ∈ reqs', q ∈ reqs ∨ 1 ≤ q.2 := by
  intro fuel
  induction fuel with
  | zero => intro offset reqs _ h; omega
  | succ fuel ih =>
    intro offset reqs hoff hfuel
    have hlenacc : (ds.take offset).length = offset :=
      length_take_of_le ds offset hoff
    have hbt : budgetLeft Option.none (ds.take offset).length = true := by
      simp [budgetLeft]
    have hbatch : batchSizeFor Option.none ps (ds.take offset).length
        = ps := by simp [batchSizeFor]
    have hflen : ((ds.drop offset).take ps).length
        = min ps (ds.length - offset) := by
      simp [List.length_take, List.length_drop]
    have ho : honestOracle ds offset
        (batchSizeFor Option.none ps (ds.take offset).length)
        = Except.ok ⟨(ds.drop offset).take ps,
            decide (offset + ((ds.drop offset).take ps).length
              < ds.length)⟩ := by
      rw [hbatch]; rfl
    by_cases hend : ds.length ≤ offset
    · -- dataset exhausted at this offset: the page comes back empty
      have hfe : (ds.drop offset).take ps = [] := by
        have : ds.drop offset = [] := List.drop_eq_nil_of_le hend
        simp [this]
      rw [runAux_step_empty _ _ _ _ _ _ _ _ hbt (by rw [ho, hfe]) (by simp)]
      refine ⟨reqs ++ [(offset,
        batchSizeFor Option.none ps (ds.take offset).length)], ?_, ?_⟩
      · have hoN : offset = ds.length := by omega
        rw [hoN, List.take_length]
      · intro q hq
        rcases List.mem_append.mp hq with h1 | h1
        · exact Or.inl h1
        · simp only [List.mem_singleton] at h1; subst h1
          rw [hbatch]; exact Or.inr hps
    · push_neg at hend
      have hne : ((ds.drop offset).take ps).length ≠ 0 := by
        rw [hflen]; omega
      have he : ((ds.drop offset).take ps).isEmpty = false := by
        rcases hx : (ds.drop offset).take ps with _ | _
        · rw [hx] at hne; simp at hne
        · simp
      by_cases hshort : ((ds.drop offset).take ps).length < ps
      · -- short page: remote data exhausted, result is the whole dataset
        have hdall : (ds.drop offset).take ps = ds.drop offset := by
          apply List.take_of_length_le
          simp [List.length_drop]
          rw [hflen] at hshort; omega
        rw [runAux_step_short _ _ _ _ _ _ _ _ hbt ho (by simpa using he)
          (by rw [hbatch]; simpa using hshort)]
        refine ⟨reqs ++ [(offset,
          batchSizeFor Option.none ps (ds.take offset).length)], ?_, ?_⟩
        · rw [hdall, List.take_append_drop]
        · intro q hq
          rcases List.mem_append.mp hq with h1 | h1
          · exact Or.inl h1
          · simp only [List.mem_singleton] at h1; subst h1
            rw [hbatch]; exact Or.inr hps
      · -- full page
        have hfull : ((ds.drop offset).take ps).length = ps := by
          rw [hflen]; rw [hflen] at hshort; omega
        have hble : ps ≤ ds.length - offset := by
          rw [hflen] at hfull; omega
        by_cases hmore : offset + ps < ds.length
        · -- flag set: advance the offset and recurse
          have hf : decide (offset + ((ds.drop offset).take ps).length
              < ds.length) = true := by rw [hfull]; simp; omega
          rw [runAux_step_next _ _ _ _ _ _ _ _ hbt ho (by simpa using he)
            (by rw [hbatch]; simpa using hshort) (by simpa using hf)]
          have hrec := ih (offset + ps)
            (reqs ++ [(offset,
              batchSizeFor Option.none ps (ds.take offset).length)])
            (by omega) (by omega)
          rcases hrec with ⟨reqs', heq, hq⟩
          refine ⟨reqs', ?_, ?_⟩
          · rw [take_append_page, hfull]
            exact heq
          · intro q hq'
            rcases hq q hq' with h1 | h1
            · rcases List.mem_append.mp h1 with h2 | h2
              · exact Or.inl h2
              · simp only [List.mem_singleton] at h2; subst h2
                rw [hbatch]; exact Or.inr hps
            · exact Or.inr h1
        · -- flag clear: this full page ended exactly at the dataset end
          have hoffN : offset + ps = ds.length := by omega
          have hf : decide (offset + ((ds.drop offset).take ps).length
              < ds.length) = false := by rw [hfull]; simp; omega
          rw [runAux_step_noflag _ _ _ _ _ _ _ _ hbt ho (by simpa using he)
            (by rw [hbatch]; simpa using hshort) (by simpa using hf)]
          refine ⟨reqs ++ [(offset,
            batchSizeFor Option.none ps (ds.take offset).length)], ?_, ?_⟩
          · rw [take_append_page, hoffN, List.take_length]
          · intro q hq
            rcases List.mem_append.mp hq with h1 | h1
            · exact Or.inl h1
            · simp only [List.mem_singleton] at h1; subst h1
              rw [hbatch]; exact Or.inr hps

/-- Against any remote service (honest or not): whenever the loop finishes,
every request recorded in its trace asked for a strictly positive
`resultRecordCount` (given a positive page size). -/
theorem runAux_reqs_pos {α : Type} (oracle : Oracle α) (mr : Option Nat)
    (ps : Nat) (hps : 1 ≤ ps) :
    ∀ fuel acc offset reqs out, (∀ q ∈ reqs, 1 ≤ q.2) →
      runPaginatedAux oracle mr ps fuel acc offset reqs = some out →
      ∀ q ∈ out.1, 1 ≤ q.2 := by
  intro fuel
  induction fuel with
  | zero =>
    intro acc offset reqs out h hrun
    simp [runPaginatedAux] at hrun
  | succ fuel ih =>
    intro acc offset reqs out h hrun
    by_cases hb : budgetLeft mr acc.length = true
    · have hbatch1 : 1 ≤ batchSizeFor mr ps acc.length := by
        cases mr with
        | none => simpa [batchSizeFor] using hps
        | some m =>
          have hlt : acc.length < m := by
            simpa [budgetLeft] using hb
          simp [batchSizeFor]; omega
      have hext : ∀ q ∈ reqs ++ [(offset, batchSizeFor mr ps acc.length)],
          1 ≤ q.2 := by
        intro q hq
        rcases List.mem_append.mp hq with h1 | h1
        · exact h q h1
        · simp only [List.mem_singleton] at h1; subst h1; exact hbatch1
      cases ho : oracle offset (batchSizeFor mr ps acc.length) with
      | error e =>
        rw [runAux_step_error _ _ _ _ _ _ _ _ hb ho] at hrun
        cases hrun
        exact hext
      | ok resp =>
        cases he : resp.features.isEmpty with
        | true =>
          rw [runAux_step_empty _ _ _ _ _ _ _ _ hb ho he] at hrun
          cases hrun
          exact hext
        | false =>
          by_cases hs : resp.features.length < batchSizeFor mr ps acc.length
          · rw [runAux_step_short _ _ _ _ _ _ _ _ hb ho he hs] at hrun
            cases hrun
            exact hext
          · cases hf : resp.exceededTransferLimit with
            | false =>
              rw [runAux_step_noflag _ _ _ _ _ _ _ _ hb ho he hs hf] at hrun
              cases hrun
              exact hext
            | true =>
              rw [runAux_step_next _ _ _ _ _ _ _ _ hb ho he hs hf] at hrun
              exact ih _ _ _ _ hext hrun
    · rw [runAux_budget_done _ _ _ _ _ _ _ (by simpa using hb)] at hrun
      cases hrun
      exact h

/-- C1: For every `max_records` value `M` (including `None`, "fetch all") and
remote page size `P ≥ 1`, the paginated fetcher run against a well-behaved
remote service over a dataset `ds` returns exactly
`min(M, total records available)` records (all of `ds` when `M` is `None`),
and — against **any** remote service — no request in a completed run's trace
has a `resultRecordCount` computed as zero (negative is impossible: the
computed batch is a natural number `min(page_size, remaining)` with
`remaining ≥ 1` under the loop guard). -/
theorem paginated_fetch_min_and_positive_requests (α : Type)
    (mr : Option Nat) (ps fuel : Nat) (hps : 1 ≤ ps) :
    (∀ ds : List α, ds.length < fuel →
      ∃ reqs res, queryPermitApiPaginated (honestOracle ds) mr ps fuel
          = some (reqs, Except.ok res) ∧
        res.length = expectedCount mr ds.length ∧
        ∀ q ∈ reqs, 1 ≤ q.2) ∧
    (∀ (oracle : Oracle α) out,
      queryPermitApiPaginated oracle mr ps fuel = some out →
      ∀ q ∈ out.1, 1 ≤ q.2) := by
  constructor
  · intro ds hfuel
    cases mr with
    | none =>
      obtain ⟨reqs', heq, hq⟩ := runAux_honest_none α ds ps hps fuel 0 []
        (Nat.zero_le _) (by omega)
      refine ⟨reqs', ds, ?_, by simp [expectedCount], ?_⟩
      · simpa [queryPermitApiPaginated] using heq
      · intro q hq'
        rcases hq q hq' with h1 | h1
        · simp at h1
        · exact h1
    | some m =>
      obtain ⟨reqs', heq, hq⟩ := runAux_honest_some α ds m ps hps fuel 0 []
        (Nat.zero_le _) (Nat.zero_le _) (by omega)
      refine ⟨reqs', ds.take (min m ds.length), ?_, ?_, ?_⟩
      · simpa [queryPermitApiPaginated] using heq
      · simp [expectedCount, List.length_take]
      · intro q hq'
        rcases hq q hq' with h1 | h1
        · simp at h1
        · exact h1
  · intro oracle out hrun
    exact runAux_reqs_pos oracle mr ps hps fuel [] 0 [] out (by simp) hrun

/-- C1 witness: a concrete run over a three-record dataset with
`max_records = 2` and page size `1`. -/
theorem paginated_fetch_min_witness :
    (1 ≤ 1) ∧
    ((∀ ds : List Nat, ds.length < 4 →
      ∃ reqs res, queryPermitApiPaginated (honestOracle ds) (some 2) 1 4
          = some (reqs, Except.ok res) ∧
        res.length = expectedCount (some 2) ds.length ∧
        ∀ q ∈ reqs, 1 ≤ q.2) ∧
    (∀ (oracle : Oracle Nat) out,
      queryPermitApiPaginated oracle (some 2) 1 4 = some out →
      ∀ q ∈ out.1, 1 ≤ q.2)) :=
  ⟨by decide,
    paginated_fetch_min_and_positive_requests Nat (some 2) 1 4 (by decide)⟩

/-- At the exact boundary `max_records = page_size = P`, every completed run
against **any** remote service issues exactly the single request `(0, P)`:
after one full page the loop guard `len(all_features) < total_requested`
already fails, so no second (empty) round ever happens. -/
theorem runAux_boundary (α : Type) (oracle : Oracle α) (P k : Nat)
    (hP : 1 ≤ P) :
    ∃ res, queryPermitApiPaginated oracle (some P) P (k + 2)
      = some ([(0, P)], res) := by
  have hbt : budgetLeft (some P) ([] : List α).length = true := by
    simp [budgetLeft]; omega
  have hbatch : batchSizeFor (some P) P ([] : List α).length = P := by
    simp [batchSizeFor]
  have hbatch0 : batchSizeFor (some P) P 0 = P := by simp [batchSizeFor]
  cases ho : oracle 0 P with
  | error e =>
    refine ⟨Except.error e, ?_⟩
    have hstep := runAux_step_error oracle (some P) P (k + 1) [] 0 [] e hbt
      (by rw [hbatch]; exact ho)
    simpa [queryPermitApiPaginated, hbatch0] using hstep
  | ok resp =>
    cases he : resp.features.isEmpty with
    | true =>
      refine ⟨Except.ok [], ?_⟩
      have hstep := runAux_step_empty oracle (some P) P (k + 1) [] 0 [] resp
        hbt (by rw [hbatch]; exact ho) he
      simpa [queryPermitApiPaginated, hbatch0] using hstep
    | false =>
      by_cases hs : resp.features.length < P
      · refine ⟨Except.ok resp.features, ?_⟩
        have hstep := runAux_step_short oracle (some P) P (k + 1) [] 0 []
          resp hbt (by rw [hbatch]; exact ho) he (by rw [hbatch]; exact hs)
        simpa [queryPermitApiPaginated, hbatch0] using hstep
      · cases hf : resp.exceededTransferLimit with
        | false =>
          refine ⟨Except.ok resp.features, ?_⟩
          have hstep := runAux_step_noflag oracle (some P) P (k + 1) [] 0 []
            resp hbt (by rw [hbatch]; exact ho) he
            (by rw [hbatch]; exact hs) hf
          simpa [queryPermitApiPaginated, hbatch0] using hstep
        | true =>
          refine ⟨Except.ok resp.features, ?_⟩
          have hstep := runAux_step_next oracle (some P) P (k + 1) [] 0 []
            resp hbt (by rw [hbatch]; exact ho) he
            (by rw [hbatch]; exact hs) hf
          have hbf : budgetLeft (some P)
              (([] : List α) ++ resp.features).length = false := by
            simp [budgetLeft]; omega
          have hdone := runAux_budget_done oracle (some P) P k
            ([] ++ resp.features) (0 + resp.features.length)
            ([] ++ [(0, batchSizeFor (some P) P ([] : List α).length)]) hbf
          rw [queryPermitApiPaginated, hstep, hdone]
          simp [hbatch0]

/-- C2: with `max_records` equal to the page size (exact boundary), a full
page returned without the `exceededTransferLimit` flag yields exactly one
remote round, whose records are the final result; and a completed run can
reach a second round only if the remote service flagged more data (vacuously
so: the trace always has exactly one request at this boundary). -/
theorem exact_boundary_single_round (α : Type) (oracle : Oracle α)
    (P fuel : Nat) (hP : 1 ≤ P) (hfuel : 2 ≤ fuel) :
    (∀ feats, oracle 0 P = Except.ok ⟨feats, false⟩ → feats.length = P →
      queryPermitApiPaginated oracle (some P) P fuel
        = some ([(0, P)], Except.ok feats)) ∧
    (∀ reqs res, queryPermitApiPaginated oracle (some P) P fuel
        = some (reqs, res) → 2 ≤ reqs.length →
      ∃ feats, oracle 0 P = Except.ok ⟨feats, true⟩) := by
  obtain ⟨k, rfl⟩ : ∃ k, fuel = k + 2 := ⟨fuel - 2, by omega⟩
  have hbt : budgetLeft (some P) ([] : List α).length = true := by
    simp [budgetLeft]; omega
  have hbatch : batchSizeFor (some P) P ([] : List α).length = P := by
    simp [batchSizeFor]
  have hbatch0 : batchSizeFor (some P) P 0 = P := by simp [batchSizeFor]
  constructor
  · intro feats ho hlen
    have he : (PageResponse.mk feats false).features.isEmpty = false := by
      simp only [PageResponse.mk.injEq]
      cases hx : feats with
      | nil => rw [hx] at hlen; simp at hlen; omega
      | cons a l => simp
    have hs : ¬ (PageResponse.mk feats false).features.length < P := by
      simp [hlen]
    have hstep := runAux_step_noflag oracle (some P) P (k + 1) [] 0 []
      ⟨feats, false⟩ hbt (by rw [hbatch]; exact ho)
      (by simpa using he) (by rw [hbatch]; simpa using hs) rfl
    simpa [queryPermitApiPaginated, hbatch0] using hstep
  · intro reqs res hrun hlen
    obtain ⟨res', hres'⟩ := runAux_boundary α oracle P k hP
    rw [hrun] at hres'
    have : reqs = [(0, P)] := by
      exact congrArg Prod.fst (Option.some.inj hres')
    subst this
    simp at hlen

/-- C2 witness: a concrete remote service returning one full page of size 1
with the flag clear; the fetcher performs exactly one round. -/
theorem exact_boundary_single_round_witness :
    (1 ≤ 1) ∧ (2 ≤ 2) ∧
    ((∀ feats : List Nat,
      (fun _ _ => Except.ok ⟨[42], false⟩ : Oracle Nat) 0 1
          = Except.ok ⟨feats, false⟩ → feats.length = 1 →
      queryPermitApiPaginated
          (fun _ _ => Except.ok ⟨[42], false⟩ : Oracle Nat) (some 1) 1 2
        = some ([(0, 1)], Except.ok feats)) ∧
    (∀ reqs res, queryPermitApiPaginated
          (fun _ _ => Except.ok ⟨[42], false⟩ : Oracle Nat) (some 1) 1 2
        = some (reqs, res) → 2 ≤ reqs.length →
      ∃ feats, (fun _ _ => Except.ok ⟨[42], false⟩ : Oracle Nat) 0 1
        = Except.ok ⟨feats, true⟩)) :=
  ⟨by decide, by decide,
    exact_boundary_single_round Nat (fun _ _ => Except.ok ⟨[42], false⟩) 1 2
      (by decide) (by decide)⟩

/-- With `max_records` unset, the loop never exits against `badOracle`:
every page is "full" (batch size 1, one record returned) and flagged as
having more data, and the guard `len < inf` never fails. -/
theorem runAux_bad_diverges :
    ∀ fuel acc offset reqs,
      runPaginatedAux badOracle Option.none 1 fuel acc offset reqs
        = Option.none := by
  intro fuel
  induction fuel with
  | zero => intro acc offset reqs; rfl
  | succ fuel ih =>
    intro acc offset reqs
    rw [runAux_step_next badOracle Option.none 1 fuel acc offset reqs
      ⟨[0], true⟩ (by simp [budgetLeft]) rfl rfl
      (by simp [batchSizeFor]) rfl]
    exact ih _ _ _

/-- C3 counterexample: the claim "the pagination loop terminates after
finitely many rounds for every `max_records` setting (including unset) and
every sequence of remote responses" is false on the code: with
`max_records = None` against `badOracle` the loop completes within no finite
number of iterations. -/
theorem pagination_can_spin_forever :
    ¬ ∃ fuel out,
      queryPermitApiPaginated badOracle Option.none 1 fuel = some out := by
  rintro ⟨fuel, out, h⟩
  rw [queryPermitApiPaginated, runAux_bad_diverges] at h
  cases h

/-- C3 amended: when `max_records` is set to some `m`, the pagination loop
terminates within `m + 1` rounds against **every** remote service (each
continuing round strictly grows the accumulator, which the guard bounds by
`m`); with `max_records` unset, termination is not guaranteed against a
misbehaving remote service. -/
theorem pagination_terminates_when_bounded (α : Type) (oracle : Oracle α)
    (m ps : Nat) :
    ∀ fuel acc offset reqs, m - acc.length < fuel →
      ∃ out, runPaginatedAux oracle (some m) ps fuel acc offset reqs
        = some out := by
  intro fuel
  induction fuel with
  | zero => intro acc offset reqs h; omega
  | succ fuel ih =>
    intro acc offset reqs hfuel
    by_cases hb : budgetLeft (some m) acc.length = true
    · cases ho : oracle offset (batchSizeFor (some m) ps acc.length) with
      | error e => exact ⟨_, runAux_step_error _ _ _ _ _ _ _ _ hb ho⟩
      | ok resp =>
        cases he : resp.features.isEmpty with
        | true => exact ⟨_, runAux_step_empty _ _ _ _ _ _ _ _ hb ho he⟩
        | false =>
          by_cases hs : resp.features.length
              < batchSizeFor (some m) ps acc.length
          · exact ⟨_, runAux_step_short _ _ _ _ _ _ _ _ hb ho he hs⟩
          · cases hf : resp.exceededTransferLimit with
            | false =>
              exact ⟨_, runAux_step_noflag _ _ _ _ _ _ _ _ hb ho he hs hf⟩
            | true =>
              have hlt : acc.length < m := by simpa [budgetLeft] using hb
              have hpos : 1 ≤ resp.features.length := by
                cases hx : resp.features with
                | nil => rw [hx] at he; simp at he
                | cons a l => simp [hx]
              obtain ⟨out, hout⟩ := ih (acc ++ resp.features)
                (offset + resp.features.length)
                (reqs ++ [(offset, batchSizeFor (some m) ps acc.length)])
                (by simp only [List.length_append]; omega)
              exact ⟨out,
                by rw [runAux_step_next _ _ _ _ _ _ _ _ hb ho he hs hf];
                   exact hout⟩
    · exact ⟨_, runAux_budget_done _ _ _ _ _ _ _ (by simpa using hb)⟩

/-- C3 amended witness: a concrete bounded run (`max_records = 2`, three
rounds of fuel) terminates. -/
theorem pagination_terminates_when_bounded_witness :
    (2 - ([] : List Nat).length < 3) ∧
    ∃ out, runPaginatedAux badOracle (some 2) 1 3 [] 0 [] = some out :=
  ⟨by decide,
    pagination_terminates_when_bounded Nat badOracle 2 1 3 [] 0 []
      (by decide)⟩

/-- Error propagation bookkeeping for the loop: a completed run that ends in
an error did so at the last request of its trace (every earlier request
succeeded), and a run that ends `ok` had every traced request succeed. -/
theorem runAux_error_trace {α : Type} (oracle : Oracle α) (mr : Option Nat)
    (ps : Nat) :
    ∀ fuel acc offset reqs out,
      (∀ p ∈ reqs, (oracle p.1 p.2).isOk = true) →
      runPaginatedAux oracle mr ps fuel acc offset reqs = some out →
      (∀ e, out.2 = Except.error e →
        ∃ pre q, out.1 = pre ++ [q] ∧ oracle q.1 q.2 = Except.error e ∧
          ∀ p ∈ pre, (oracle p.1 p.2).isOk = true) ∧
      (∀ res, out.2 = Except.ok res →
        ∀ p ∈ out.1, (oracle p.1 p.2).isOk = true) := by
  intro fuel
  induction fuel with
  | zero =>
    intro acc offset reqs out h hrun
    simp [runPaginatedAux] at hrun
  | succ fuel ih =>
    intro acc offset reqs out h hrun
    by_cases hb : budgetLeft mr acc.length = true
    · cases ho : oracle offset (batchSizeFor mr ps acc.length) with
      | error e0 =>
        rw [runAux_step_error _ _ _ _ _ _ _ _ hb ho] at hrun
        cases hrun
        constructor
        · intro e he
          cases he
          exact ⟨reqs, (offset, batchSizeFor mr ps acc.length), rfl, ho, h⟩
        · intro res hres; cases hres
      | ok resp =>
        have hok1 : ∀ p ∈ reqs ++
            [(offset, batchSizeFor mr ps acc.length)],
            (oracle p.1 p.2).isOk = true := by
          intro p hp
          rcases List.mem_append.mp hp with h1 | h1
          · exact h p h1
          · simp only [List.mem_singleton] at h1; subst h1
            rw [ho]; rfl
        cases he : resp.features.isEmpty with
        | true =>
          rw [runAux_step_empty _ _ _ _ _ _ _ _ hb ho he] at hrun
          cases hrun
          exact ⟨fun e h1 => Except.noConfusion h1, fun res _ => hok1⟩
        | false =>
          by_cases hs : resp.features.length
              < batchSizeFor mr ps acc.length
          · rw [runAux_step_short _ _ _ _ _ _ _ _ hb ho he hs] at hrun
            cases hrun
            exact ⟨fun e h1 => Except.noConfusion h1, fun res _ => hok1⟩
          · cases hf : resp.exceededTransferLimit with
            | false =>
              rw [runAux_step_noflag _ _ _ _ _ _ _ _ hb ho he hs hf] at hrun
              cases hrun
              exact ⟨fun e h1 => Except.noConfusion h1, fun res _ => hok1⟩
            | true =>
              rw [runAux_step_next _ _ _ _ _ _ _ _ hb ho he hs hf] at hrun
              exact ih _ _ _ _ hok1 hrun
    · rw [runAux_budget_done _ _ _ _ _ _ _ (by simpa using hb)] at hrun
      cases hrun
      exact ⟨fun e h1 => Except.noConfusion h1, fun res _ => h⟩

/-- C6: if any remote page request inside a paginated fetch fails, the whole
operation aborts with that error: the final result carries the error (and no
records — accumulated pages are discarded, there is no partial-success
return), the failing request is the last one in the trace, every earlier
request had succeeded, and the failing request is never re-issued. -/
theorem fetch_error_aborts_whole_operation (α : Type) (oracle : Oracle α)
    (mr : Option Nat) (ps fuel : Nat) (reqs : List (Nat × Nat)) (e : String)
    (hrun : queryPermitApiPaginated oracle mr ps fuel
      = some (reqs, Except.error e)) :
    ∃ pre q, reqs = pre ++ [q] ∧ oracle q.1 q.2 = Except.error e ∧
      (∀ p ∈ pre, (oracle p.1 p.2).isOk = true) ∧ q ∉ pre := by
  obtain ⟨herr, -⟩ := runAux_error_trace oracle mr ps fuel [] 0 []
    (reqs, Except.error e) (by simp) hrun
  obtain ⟨pre, q, hsplit, hq, hpre⟩ := herr e rfl
  refine ⟨pre, q, hsplit, hq, hpre, ?_⟩
  intro hmem
  have hok := hpre q hmem
  rw [hq] at hok
  exact Bool.noConfusion hok

/-- C6 witness: against a service whose second page request fails, the run
aborts with the error after requests `(0,1)` and `(1,1)`. -/
theorem fetch_error_aborts_witness :
    (queryPermitApiPaginated errOracle (some 3) 1 5
      = some ([(0, 1), (1, 1)], Except.error "boom")) ∧
    ∃ pre q, [(0, 1), (1, 1)] = pre ++ [q] ∧
      errOracle q.1 q.2 = Except.error "boom" ∧
      (∀ p ∈ pre, (errOracle p.1 p.2).isOk = true) ∧ q ∉ pre :=
  ⟨rfl, fetch_error_aborts_whole_operation Nat errOracle (some 3) 1 5
    [(0, 1), (1, 1)] "boom" rfl⟩

/-- C5 counterexample: the by-neighborhood branch does **not** produce the
tautological predicate for an empty filter value — it interpolates the empty
string into the `LIKE` pattern instead. -/
theorem empty_neighborhood_not_tautology :
    buildNeighborhoodWhere "" ≠ "1=1" := by decide

/-- C5 amended: an empty address falls back to the tautological `1=1`
predicate, but an empty neighborhood yields the field-level pattern
`Neighborhood LIKE '%%'` (a `LIKE` match-all on the field, not the
tautological predicate). -/
theorem empty_filter_defaults :
    buildAddressWhere "" = "1=1" ∧
    buildNeighborhoodWhere "" = "Neighborhood LIKE " ++ sq ++ "%%" ++ sq := by
  exact ⟨rfl, rfl⟩

/-- Escaping the head of a list of characters. -/
theorem escChars_cons (c : Char) (l : List Char) :
    escChars (c :: l) = (if c = sqChar then [c, c] else [c]) ++ escChars l := by
  simp [escChars]

/-- Prepending a non-quote character keeps the payload well-escaped. -/
theorem wellEscaped_cons_ne (c : Char) (l : List Char) (h : ¬ c = sqChar) :
    wellEscaped (c :: l) = wellEscaped l := by
  cases l with
  | nil => simp [wellEscaped, h]
  | cons d t => simp [wellEscaped, h]

/-- The output of quote-doubling is always well-escaped. -/
theorem wellEscaped_escChars : ∀ l : List Char,
    wellEscaped (escChars l) = true := by
  intro l
  induction l with
  | nil => rfl
  | cons c t ih =>
    by_cases hc : c = sqChar
    · subst hc
      rw [escChars_cons]
      simp only [if_pos rfl, List.cons_append, List.nil_append]
      simp [wellEscaped, ih]
    · rw [escChars_cons, if_neg hc]
      simp only [List.cons_append, List.nil_append]
      rw [wellEscaped_cons_ne c _ hc]
      exact ih

/-- Quote-doubling exactly doubles the number of quote characters. -/
theorem escChars_count (l : List Char) :
    (escChars l).count sqChar = 2 * l.count sqChar := by
  induction l with
  | nil => rfl
  | cons c t ih =>
    by_cases hc : c = sqChar
    · subst hc
      rw [escChars_cons, if_pos rfl]
      simp only [List.cons_append, List.nil_append, List.count_cons]
      simp [ih]
      ring
    · rw [escChars_cons, if_neg hc]
      simp only [List.cons_append, List.nil_append, List.count_cons]
      simp [ih, hc]

/-- C7: every embedded single quote of a user-supplied literal is doubled
before interpolation (the escaped payload has twice as many quote characters
and every quote in it sits in an adjacent pair, so the quoted literal cannot
be terminated early), and the address / neighborhood / case-number builders
render `O'Brien` with its quote doubled. -/
theorem single_quotes_doubled :
    (∀ s : String, wellEscaped (escapeQuotes s).data = true) ∧
    (∀ s : String, (escapeQuotes s).data.count sqChar
      = 2 * s.data.count sqChar) ∧
    buildAddressWhere ("O" ++ sq ++ "Brien")
      = "Address LIKE " ++ sq ++ "%O" ++ sq ++ sq ++ "Brien%" ++ sq ∧
    buildNeighborhoodWhere ("O" ++ sq ++ "Brien")
      = "Neighborhood LIKE " ++ sq ++ "%O" ++ sq ++ sq ++ "Brien%" ++ sq ∧
    buildCaseNumberWhere ("O" ++ sq ++ "Brien")
      = "CaseNumber = " ++ sq ++ "O" ++ sq ++ sq ++ "Brien" ++ sq := by
  refine ⟨?_, ?_, by decide, by decide, by decide⟩
  · intro s
    exact wellEscaped_escChars s.data
  · intro s
    exact escChars_count s.data

/-- C4 counterexample: `format_permit` is **not** total — on a record whose
`Description` property is the integer `5`, the slice
`props.get('Description', 'N/A')[:200]` raises `TypeError`, so the formatter
does not return a text block. -/
theorem formatter_raises_on_bad_description :
    (formatPermit badDescriptionPermit).isOk = false := by rfl

/-- Numeric values always format under `:.6f`. -/
theorem fmt6val_ok (v : PyVal) (h : numOk v = true) :
    ∃ s, fmt6val v = Except.ok s := by
  cases v with
  | int n => exact ⟨toString n ++ ".000000", rfl⟩
  | bool b => exact ⟨if b then "1.000000" else "0.000000", rfl⟩
  | none => simp [numOk] at h
  | str s => simp [numOk] at h
  | list xs => simp [numOk] at h
  | dict d => simp [numOk] at h

/-- Well-shaped coordinate values render without raising. -/
theorem formatCoordsVal_ok (c : PyVal) (h : coordsOk c = true) :
    ∃ s, formatCoordsVal c = Except.ok s := by
  by_cases ht : truthy c = true
  · rcases c with _ | b | n | s | xs | d
    · simp [truthy] at ht
    · simp [coordsOk, ht] at h
    · simp [coordsOk, ht] at h
    · simp [coordsOk, ht] at h
    · rcases xs with _ | ⟨lon, t⟩
      · simp [truthy] at ht
      · rcases t with _ | ⟨lat, t2⟩
        · simp [coordsOk, ht] at h
        · rcases t2 with _ | ⟨z, t3⟩
          · simp [coordsOk, ht] at h
            obtain ⟨s2, hs2⟩ := fmt6val_ok lat h.2
            obtain ⟨s1, hs1⟩ := fmt6val_ok lon h.1
            exact ⟨"(" ++ s2 ++ ", " ++ s1 ++ ")",
              by simp [formatCoordsVal, ht, hs1, hs2]; rfl⟩
          · simp [coordsOk, ht] at h
    · simp [coordsOk, ht] at h
  · exact ⟨"", by simp [formatCoordsVal, ht]⟩

/-- Falsy-or-numeric cost values render without raising. -/
theorem formatCostVal_ok (c : PyVal) (h : costOk c = true) :
    ∃ s, formatCostVal c = Except.ok s := by
  by_cases ht : truthy c = true
  · rcases c with _ | b | n | s | xs | d
    · simp [truthy] at ht
    · exact ⟨"$1", by simp [formatCostVal, ht]⟩
    · exact ⟨"$" ++ commaGroupInt n, by simp [formatCostVal, ht]⟩
    · simp [costOk, numOk, ht] at h
    · simp [costOk, numOk, ht] at h
    · simp [costOk, numOk, ht] at h
  · exact ⟨"N/A", by simp [formatCostVal, ht]⟩

/-- Sliceable description values render without raising. -/
theorem formatDescriptionVal_ok (c : PyVal) (h : descOk c = true) :
    ∃ s, formatDescriptionVal c = Except.ok s := by
  cases c with
  | str s => exact ⟨s.take 200, rfl⟩
  | list xs => exact ⟨pyStr (PyVal.list (xs.take 200)), rfl⟩
  | none => simp [descOk] at h
  | bool b => simp [descOk] at h
  | int n => simp [descOk] at h
  | dict d => simp [descOk] at h

/-- Timestamp fields that are non-numeric or numerically within the
`time_t` range never make the date block raise. -/
theorem formatDateField_ok (pr : List (String × PyVal)) (key : String)
    (h : tsOk (pyGetD pr key PyVal.none) = true) :
    ∃ s, formatDateField pr key = Except.ok s := by
  by_cases ht : truthy (pyGetD pr key PyVal.none) = true
  · cases hn : pyNumMs (pyGetD pr key PyVal.none) with
    | some n =>
      have hr : msInRange n = true := by simpa [tsOk, hn] using h
      cases hdm : dateFromEpochMs n with
      | some s => exact ⟨s, by simp [formatDateField, ht, hn, hr, hdm]⟩
      | none =>
        exact ⟨pyStr (pyGetD pr key PyVal.none),
          by simp [formatDateField, ht, hn, hr, hdm]⟩
    | none =>
      exact ⟨pyStr (pyGetD pr key PyVal.none),
        by simp [formatDateField, ht, hn]⟩
  · exact ⟨"", by simp [formatDateField, ht]⟩

/-- A timestamp beyond the platform `time_t` range raises an uncaught
`OverflowError`, which escapes `format_permit` even when every other field
is benign. -/
theorem formatter_overflow_escapes :
    (formatPermit overflowTimestampPermit).isOk = false := by rfl

/-- C4 amended: `format_permit` never raises on any permit record in the
well-formed class — a dict whose `properties`/`geometry` entries are dicts
(or absent), whose description is sliceable (string or list), whose cost is
falsy or numeric, whose coordinates are absent/falsy or a pair of numbers,
and whose issued/expiration timestamps are non-numeric or numerically
within the platform `time_t` range (in-range timestamps render or fall back
to the raw string under the caught `ValueError`/`TypeError`/`OSError`);
every other field may hold arbitrary values, with every access falling back
to an explicit default.  Outside that class (non-string description, truthy
non-numeric cost, malformed coordinates, non-dict properties/geometry, or a
timestamp beyond `time_t`, whose `OverflowError` the `except` tuple does
not catch) the function raises. -/
theorem formatPermit_total_on_wellFormed (p : PyVal)
    (hwf : permitWellFormed p = true) : (formatPermit p).isOk = true := by
  cases p with
  | dict pd =>
    cases hp : pyGetD pd "properties" (PyVal.dict []) with
    | dict pr =>
      cases hg : pyGetD pd "geometry" (PyVal.dict []) with
      | dict gm =>
        simp only [permitWellFormed, hp, hg, Bool.and_eq_true] at hwf
        obtain ⟨⟨⟨⟨hd, hc⟩, hco⟩, ht1⟩, ht2⟩ := hwf
        obtain ⟨is1, his⟩ := formatDateField_ok pr "IssuedDate" ht1
        obtain ⟨es1, hes⟩ := formatDateField_ok pr "ExpirationDate" ht2
        obtain ⟨cs, hcs⟩ := formatCoordsVal_ok _ hco
        obtain ⟨ms, hms⟩ := formatCostVal_ok _ hc
        obtain ⟨dsc, hdsc⟩ := formatDescriptionVal_ok _ hd
        have hcs' : formatCoords gm = Except.ok cs := hcs
        have hms' : formatCost pr = Except.ok ms := hms
        have hdsc' : formatDescription pr = Except.ok dsc := hdsc
        simp [formatPermit, hp, hg, his, hes, hcs', hms', hdsc', Except.bind]
        rfl
      | none => simp [permitWellFormed, hp, hg] at hwf
      | bool b => simp [permitWellFormed, hp, hg] at hwf
      | int n => simp [permitWellFormed, hp, hg] at hwf
      | str s => simp [permitWellFormed, hp, hg] at hwf
      | list xs => simp [permitWellFormed, hp, hg] at hwf
    | none => simp [permitWellFormed, hp] at hwf
    | bool b => simp [permitWellFormed, hp] at hwf
    | int n => simp [permitWellFormed, hp] at hwf
    | str s => simp [permitWellFormed, hp] at hwf
    | list xs => simp [permitWellFormed, hp] at hwf
  | none => simp [permitWellFormed] at hwf
  | bool b => simp [permitWellFormed] at hwf
  | int n => simp [permitWellFormed] at hwf
  | str s => simp [permitWellFormed] at hwf
  | list xs => simp [permitWellFormed] at hwf

/-- C4 amended witness: a concrete well-formed permit record formats
successfully. -/
theorem formatPermit_total_witness :
    permitWellFormed samplePermit = true ∧
    (formatPermit samplePermit).isOk = true :=
  ⟨by decide, formatPermit_total_on_wellFormed samplePermit (by decide)⟩

/-- Two strings decompose around a needle exactly when the needle's
characters are an infix of the haystack's characters. -/
theorem substring_iff_data (needle msg : String) :
    (∃ pre post : String, msg = pre ++ needle ++ post) ↔
      needle.data <:+: msg.data := by
  constructor
  · rintro ⟨pre, post, rfl⟩
    exact ⟨pre.data, post.data, by simp [String.data_append]⟩
  · rintro ⟨u, t, h⟩
    refine ⟨String.mk u, String.mk t, ?_⟩
    have hdata : msg.data = (String.mk u ++ needle ++ String.mk t).data := by
      rw [String.data_append, String.data_append]
      exact h.symm
    exact congrArg String.mk hdata

set_option maxRecDepth 16384 in
/-- C8 counterexample: the start date `2024-02-30` is in exact `YYYY-MM-DD`
shape but fails to parse (day out of range), and the error text the call
returns does **not** contain the offending value anywhere — refuting the
claim that every unparseable value yields error text naming it. -/
theorem date_range_error_text_omits_value :
    ∃ msg, searchPermitsByDateRange "2024-02-30" "2024-01-01" 50
        = ToolOutcome.errText msg ∧
      ¬ ∃ pre post : String, msg = pre ++ "2024-02-30" ++ post := by
  refine ⟨invalidDateText (strptimeErrMsg "2024-02-30" StrptimeErr.badDate),
    rfl, ?_⟩
  rw [substring_iff_data]
  decide

/-- C8 amended: if either bound of a by-date-range call fails to parse as
`YYYY-MM-DD`, the branch returns explanatory error text and issues no
remote request (no silent coercion); when the failure is a format mismatch
the text names the offending value, while calendar-invalid or
trailing-garbage values surface the library's message without the value. -/
theorem date_range_rejects_malformed (s e : String) (limit : Nat)
    (h : (strptimeYMD s).isOk = false ∨ (strptimeYMD e).isOk = false) :
    (∃ msg, searchPermitsByDateRange s e limit = ToolOutcome.errText msg) ∧
    (∀ w l, searchPermitsByDateRange s e limit ≠ ToolOutcome.query w l) ∧
    (strptimeYMD s = Except.error StrptimeErr.noMatch →
      ∃ pre post, searchPermitsByDateRange s e limit
        = ToolOutcome.errText (pre ++ s ++ post)) ∧
    (∀ sd, strptimeYMD s = Except.ok sd →
      strptimeYMD e = Except.error StrptimeErr.noMatch →
      ∃ pre post, searchPermitsByDateRange s e limit
        = ToolOutcome.errText (pre ++ e ++ post)) := by
  cases hs : strptimeYMD s with
  | error e1 =>
    refine ⟨⟨invalidDateText (strptimeErrMsg s e1),
        by simp [searchPermitsByDateRange, hs]⟩, ?_, ?_, ?_⟩
    · intro w l hq
      simp [searchPermitsByDateRange, hs] at hq
    · intro hnm
      injection hnm with h1
      subst h1
      refine ⟨"Invalid date format. Please use YYYY-MM-DD format. Error: "
          ++ ("time data " ++ sq),
        sq ++ " does not match format " ++ sq ++ "%Y-%m-%d" ++ sq, ?_⟩
      simp [searchPermitsByDateRange, hs, invalidDateText, strptimeErrMsg,
        String.append_assoc]
    · intro sd hsd
      cases hsd
  | ok sd =>
    cases he2 : strptimeYMD e with
    | error e1 =>
      refine ⟨⟨invalidDateText (strptimeErrMsg e e1),
        by simp [searchPermitsByDateRange, hs, he2]⟩, ?_, ?_, ?_⟩
      · intro w l hq
        simp [searchPermitsByDateRange, hs, he2] at hq
      · intro hnm
        cases hnm
      · intro sd2 hsd hnm
        injection hnm with h1
        subst h1
        refine ⟨"Invalid date format. Please use YYYY-MM-DD format. Error: "
            ++ ("time data " ++ sq),
          sq ++ " does not match format " ++ sq ++ "%Y-%m-%d" ++ sq, ?_⟩
        simp [searchPermitsByDateRange, hs, he2, invalidDateText,
          strptimeErrMsg, String.append_assoc]
    | ok ed =>
      exfalso
      rcases h with h | h
      · rw [hs] at h
        exact Bool.noConfusion h
      · rw [he2] at h
        exact Bool.noConfusion h

/-- C8 witness: a concrete malformed start date (`13/02/2024`) fails the
format, so the call returns error text naming it and issues no query. -/
theorem date_range_rejects_malformed_witness :
    ((strptimeYMD "13/02/2024").isOk = false ∨
      (strptimeYMD "2024-01-01").isOk = false) ∧
    ((∃ msg, searchPermitsByDateRange "13/02/2024" "2024-01-01" 50
        = ToolOutcome.errText msg) ∧
    (∀ w l, searchPermitsByDateRange "13/02/2024" "2024-01-01" 50
        ≠ ToolOutcome.query w l) ∧
    (strptimeYMD "13/02/2024" = Except.error StrptimeErr.noMatch →
      ∃ pre post, searchPermitsByDateRange "13/02/2024" "2024-01-01" 50
        = ToolOutcome.errText (pre ++ "13/02/2024" ++ post)) ∧
    (∀ sd, strptimeYMD "13/02/2024" = Except.ok sd →
      strptimeYMD "2024-01-01" = Except.error StrptimeErr.noMatch →
      ∃ pre post, searchPermitsByDateRange "13/02/2024" "2024-01-01" 50
        = ToolOutcome.errText (pre ++ "2024-01-01" ++ post))) :=
  ⟨Or.inl (by decide),
    date_range_rejects_malformed "13/02/2024" "2024-01-01" 50
      (Or.inl (by decide))⟩

/-- C9: for every dataset order, cutoff and limit, the recent-permits branch
fetches at most `2 × limit` records after the cutoff and returns at most
`limit` records sorted by issued timestamp descending, all at or after the
cutoff — regardless of the order in which the remote service holds them. -/
theorem recent_permits_sorted_and_capped (ds : List PyVal) (cutoff : Int)
    (limit fuel : Nat) (hfuel : ds.length < fuel) :
    ∃ reqs feats res,
      queryPermitApiPaginated
          (honestOracle (ds.filter (fun f => decide (cutoff ≤ issuedKeyOf f))))
          (some (limit * 2)) 1000 fuel = some (reqs, Except.ok feats) ∧
      feats.length ≤ 2 * limit ∧
      getRecentPermits ds cutoff limit fuel = some res ∧
      res.length ≤ limit ∧
      List.Pairwise (fun a b => issuedKeyOf b ≤ issuedKeyOf a) res ∧
      ∀ f ∈ res, cutoff ≤ issuedKeyOf f := by
  have hmlen : (ds.filter (fun f => decide (cutoff ≤ issuedKeyOf f))).length
      ≤ ds.length := List.length_filter_le ..
  obtain ⟨reqs, heq, -⟩ := runAux_honest_some PyVal
    (ds.filter (fun f => decide (cutoff ≤ issuedKeyOf f))) (limit * 2) 1000
    (by omega) fuel 0 [] (Nat.zero_le _) (Nat.zero_le _) (by omega)
  have hrun : queryPermitApiPaginated
      (honestOracle (ds.filter (fun f => decide (cutoff ≤ issuedKeyOf f))))
      (some (limit * 2)) 1000 fuel
      = some (reqs, Except.ok
          ((ds.filter (fun f => decide (cutoff ≤ issuedKeyOf f))).take
            (min (limit * 2)
              (ds.filter (fun f => decide (cutoff ≤ issuedKeyOf f))).length)))
      := by
    simpa [queryPermitApiPaginated] using heq
  refine ⟨reqs, _, getRecentSort
    ((ds.filter (fun f => decide (cutoff ≤ issuedKeyOf f))).take
      (min (limit * 2)
        (ds.filter (fun f => decide (cutoff ≤ issuedKeyOf f))).length))
    limit, hrun, ?_, ?_, ?_, ?_, ?_⟩
  · simp [List.length_take]
    omega
  · simp only [getRecentPermits]
    rw [hrun]
  · simp [getRecentSort, List.length_take]
  · have htrans : ∀ a b c : PyVal, issuedDesc a b = true →
        issuedDesc b c = true → issuedDesc a c = true := by
      intro a b c h1 h2
      simp only [issuedDesc, decide_eq_true_eq] at h1 h2 ⊢
      omega
    have htotal : ∀ a b : PyVal, (issuedDesc a b || issuedDesc b a)
        = true := by
      intro a b
      simp only [issuedDesc, Bool.or_eq_true, decide_eq_true_eq]
      omega
    have hsorted := List.sorted_mergeSort htrans htotal
      ((ds.filter (fun f => decide (cutoff ≤ issuedKeyOf f))).take
        (min (limit * 2)
          (ds.filter (fun f => decide (cutoff ≤ issuedKeyOf f))).length))
    have hsorted2 : List.Pairwise
        (fun a b => issuedKeyOf b ≤ issuedKeyOf a)
        (((ds.filter (fun f => decide (cutoff ≤ issuedKeyOf f))).take
          (min (limit * 2)
            (ds.filter (fun f =>
              decide (cutoff ≤ issuedKeyOf f))).length)).mergeSort
          issuedDesc) := by
      refine hsorted.imp ?_
      intro a b hab
      simpa [issuedDesc] using hab
    exact hsorted2.sublist (List.take_sublist ..)
  · intro f hf
    have hf2 := List.mem_of_mem_take hf
    have hf3 := (List.mergeSort_perm .. ).mem_iff.mp hf2
    have hf4 := List.mem_of_mem_take hf3
    have hf5 := (List.mem_filter.mp hf4).2
    simpa using hf5

/-- C9 witness: an out-of-order two-record dataset with `limit = 1`. -/
theorem recent_permits_sorted_witness :
    (([PyVal.dict [("properties", PyVal.dict [("IssuedDate", PyVal.int 10)])],
       PyVal.dict [("properties",
         PyVal.dict [("IssuedDate", PyVal.int 20)])]] : List PyVal).length
      < 9) ∧
    ∃ reqs feats res,
      queryPermitApiPaginated
          (honestOracle
            (([PyVal.dict [("properties",
                PyVal.dict [("IssuedDate", PyVal.int 10)])],
              PyVal.dict [("properties",
                PyVal.dict [("IssuedDate", PyVal.int 20)])]] :
              List PyVal).filter
              (fun f => decide ((0 : Int) ≤ issuedKeyOf f))))
          (some (1 * 2)) 1000 9 = some (reqs, Except.ok feats) ∧
      feats.length ≤ 2 * 1 ∧
      getRecentPermits
          [PyVal.dict [("properties", PyVal.dict [("IssuedDate", PyVal.int 10)])],
           PyVal.dict [("properties", PyVal.dict [("IssuedDate", PyVal.int 20)])]]
          0 1 9 = some res ∧
      res.length ≤ 1 ∧
      List.Pairwise (fun a b => issuedKeyOf b ≤ issuedKeyOf a) res ∧
      ∀ f ∈ res, (0 : Int) ≤ issuedKeyOf f :=
  ⟨by decide,
    recent_permits_sorted_and_capped
      [PyVal.dict [("properties", PyVal.dict [("IssuedDate", PyVal.int 10)])],
       PyVal.dict [("properties", PyVal.dict [("IssuedDate", PyVal.int 20)])]]
      0 1 9 (by decide)⟩

/-- C10: the count operation issues exactly one remote request, with the
count-only flag set and the caller's raw predicate, and never enters the
pagination loop (no paginated fetch is part of this branch); the scalar is
extracted from `properties.count` when a `properties` entry exists, from the
top-level `count` otherwise, defaulting to `0` when absent — hence the
result is a non-negative integer whenever the service reports a
non-negative (or no) count. -/
theorem count_permits_single_request (w : String) (data : PyVal) :
    ((countPermits w data).1.length = 1 ∧
      ∀ r ∈ (countPermits w data).1,
        r.returnCountOnly = true ∧ r.whereClause = w) ∧
    (∀ d pd n, data = PyVal.dict d →
      dictGet d "properties" = some (PyVal.dict pd) →
      dictGet pd "count" = some (PyVal.int n) →
      (countPermits w data).2 = Except.ok (PyVal.int n)) ∧
    (∀ d pd, data = PyVal.dict d →
      dictGet d "properties" = some (PyVal.dict pd) →
      dictGet pd "count" = Option.none →
      (countPermits w data).2 = Except.ok (PyVal.int 0)) ∧
    (∀ d n, data = PyVal.dict d → dictGet d "properties" = Option.none →
      dictGet d "count" = some (PyVal.int n) →
      (countPermits w data).2 = Except.ok (PyVal.int n)) ∧
    (∀ d, data = PyVal.dict d → dictGet d "properties" = Option.none →
      dictGet d "count" = Option.none →
      (countPermits w data).2 = Except.ok (PyVal.int 0)) ∧
    (∀ n : Int, (countPermits w data).2 = Except.ok (PyVal.int n) →
      0 ≤ n ∨ ∃ d, data = PyVal.dict d) := by
  refine ⟨⟨rfl, ?_⟩, ?_, ?_, ?_, ?_, ?_⟩
  · intro r hr
    simp only [countPermits, List.mem_singleton] at hr
    subst hr
    exact ⟨rfl, rfl⟩
  · intro d pd n hd hp hc
    subst hd
    simp [countPermits, extractCount, hp, pyGetD, hc]
  · intro d pd hd hp hc
    subst hd
    simp [countPermits, extractCount, hp, pyGetD, hc]
  · intro d n hd hp hc
    subst hd
    simp [countPermits, extractCount, hp, pyGetD, hc]
  · intro d hd hp hc
    subst hd
    simp [countPermits, extractCount, hp, pyGetD, hc]
  · intro n hn
    cases data with
    | dict d => exact Or.inr ⟨d, rfl⟩
    | none => simp [countPermits, extractCount] at hn
    | bool b => simp [countPermits, extractCount] at hn
    | int k => simp [countPermits, extractCount] at hn
    | str s => simp [countPermits, extractCount] at hn
    | list xs => simp [countPermits, extractCount] at hn

/-- C10 witness: a response carrying `properties.count = 7` yields the count
`7` from the single count-only request. -/
theorem count_permits_single_request_witness :
    ((countPermits "1=1"
        (PyVal.dict [("properties",
          PyVal.dict [("count", PyVal.int 7)])])).1.length = 1) ∧
    ((countPermits "1=1"
        (PyVal.dict [("properties",
          PyVal.dict [("count", PyVal.int 7)])])).2
      = Except.ok (PyVal.int 7)) :=
  ⟨(count_permits_single_request "1=1"
      (PyVal.dict [("properties",
        PyVal.dict [("count", PyVal.int 7)])])).1.1,
   (count_permits_single_request "1=1"
      (PyVal.dict [("properties",
        PyVal.dict [("count", PyVal.int 7)])])).2.1
      [("properties", PyVal.dict [("count", PyVal.int 7)])]
      [("count", PyVal.int 7)] 7 rfl rfl rfl⟩

end OpenBalt
